import Mathlib

/-!
Verification of `testutil/integration/evmos/network/setup.go` (evmos).

The file below shallowly embeds the data model and the operations of
`setup.go` and proves the testable properties of the specification
against them.  External SDK types (cosmos-sdk Coins, cometbft
validators, codec `Any`, JSON marshalling) are modelled at the
abstraction level the file uses them:

* `sdkmath.Int` is arbitrary precision, so it is `Int`.
* `sdkmath.LegacyDec` is an exact decimal; it is modelled as `Rat`
  (the file only ever uses the constants 0 and 1).
* `sdktypes.Coins` is a list of denom/amount pairs.  The cosmos-sdk
  `Coins.safeAdd` (v0.47) groups all coins of both operands by
  denomination, sums each group, drops the denominations whose total is
  zero, and sorts the result by denomination; it is only defined
  (panics otherwise) when both operands are sorted.  `Coins.add` below
  implements exactly that group/sum/drop/sort semantics, totalised to
  arbitrary coin lists.
* JSON serialization via the app codec (`MustMarshalJSON`) is modelled
  symbolically by the injective tagged type `RawMessage`: each module
  genesis value is wrapped in its own constructor.
-/

/-- A single `sdktypes.Coin`: a denomination and an arbitrary-precision
amount. -/
structure Coin where
  denom : String
  amount : Int
deriving Repr, DecidableEq

/-- `sdktypes.Coins`. -/
abbrev Coins := List Coin

namespace Coins

/-- The total amount a coin list holds in denomination `d` (the sum of
the amounts of all entries with that denomination). -/
def amountOf (cs : Coins) (d : String) : Int :=
  (cs.map (fun c => if c.denom = d then c.amount else 0)).sum

/-- Insert a denomination into a strictly sorted denomination list,
keeping it sorted and duplicate free. -/
def insertDenom (d : String) : List String → List String
  | [] => [d]
  | e :: es =>
    if d < e then d :: e :: es
    else if d = e then e :: es
    else e :: insertDenom d es

/-- Sort a denomination list and remove duplicates. -/
def sortDedupDenoms (l : List String) : List String := l.foldr insertDenom []

/-- `sdktypes.Coins.Add` / `safeAdd` (cosmos-sdk v0.47): group the coins
of both operands by denomination, sum each group, drop zero totals and
sort the surviving denominations. -/
def add (a b : Coins) : Coins :=
  (sortDedupDenoms ((a ++ b).map Coin.denom)).filterMap
    (fun d =>
      if amountOf (a ++ b) d = 0 then none
      else some { denom := d, amount := amountOf (a ++ b) d })

/-- A coin list in the canonical form produced by coin arithmetic:
strictly sorted by denomination and free of zero amounts.  `safeAdd`
requires (and produces) this shape. -/
def Canonical (cs : Coins) : Prop :=
  (cs.map Coin.denom).Sorted (· < ·) ∧ ∀ c ∈ cs, c.amount ≠ 0

instance (cs : Coins) : Decidable (Canonical cs) := by
  unfold Canonical; infer_instance

theorem amountOf_nil (d : String) : amountOf [] d = 0 := rfl

theorem amountOf_cons (c : Coin) (cs : Coins) (d : String) :
    amountOf (c :: cs) d = (if c.denom = d then c.amount else 0) + amountOf cs d := by
  simp [amountOf]

theorem amountOf_append (a b : Coins) (d : String) :
    amountOf (a ++ b) d = amountOf a d + amountOf b d := by
  simp [amountOf]

theorem amountOf_eq_zero {cs : Coins} {d : String} (h : d ∉ cs.map Coin.denom) :
    amountOf cs d = 0 := by
  induction cs with
  | nil => rfl
  | cons c cs ih =>
    rw [List.map_cons, List.mem_cons] at h
    push_neg at h
    rw [amountOf_cons, if_neg (fun hc => h.1 hc.symm), ih h.2]
    ring

theorem insertDenom_nil (d : String) : insertDenom d [] = [d] := rfl

theorem insertDenom_cons (d e : String) (es : List String) :
    insertDenom d (e :: es) =
      if d < e then d :: e :: es
      else if d = e then e :: es
      else e :: insertDenom d es := rfl

theorem mem_insertDenom (d x : String) (l : List String) :
    x ∈ insertDenom d l ↔ x = d ∨ x ∈ l := by
  induction l with
  | nil => simp [insertDenom_nil]
  | cons e es ih =>
    by_cases h1 : d < e
    · rw [insertDenom_cons, if_pos h1]
      simp
    · by_cases h2 : d = e
      · subst h2
        rw [insertDenom_cons, if_neg h1, if_pos rfl, List.mem_cons]
        tauto
      · rw [insertDenom_cons, if_neg h1, if_neg h2, List.mem_cons, List.mem_cons, ih]
        tauto

theorem sorted_insertDenom (d : String) (l : List String)
    (h : l.Sorted (· < ·)) : (insertDenom d l).Sorted (· < ·) := by
  induction l with
  | nil => simp [insertDenom_nil]
  | cons e es ih =>
    rw [List.sorted_cons] at h
    by_cases h1 : d < e
    · rw [insertDenom_cons, if_pos h1, List.sorted_cons]
      refine ⟨?_, List.sorted_cons.mpr h⟩
      intro b hb
      rcases List.mem_cons.mp hb with rfl | hb
      · exact h1
      · exact lt_trans h1 (h.1 b hb)
    · by_cases h2 : d = e
      · subst h2
        rw [insertDenom_cons, if_neg h1, if_pos rfl]
        exact List.sorted_cons.mpr h
      · rw [insertDenom_cons, if_neg h1, if_neg h2, List.sorted_cons]
        constructor
        · intro b hb
          rcases (mem_insertDenom d b es).mp hb with hbd | hb
          · rw [hbd]
            rcases lt_trichotomy d e with hlt | heq | hgt
            · exact absurd hlt h1
            · exact absurd heq h2
            · exact hgt
          · exact h.1 b hb
        · exact ih h.2

theorem sorted_sortDedupDenoms (l : List String) :
    (sortDedupDenoms l).Sorted (· < ·) := by
  induction l with
  | nil => simp [sortDedupDenoms]
  | cons e es ih => exact sorted_insertDenom e (sortDedupDenoms es) ih

theorem mem_sortDedupDenoms (l : List String) (x : String) :
    x ∈ sortDedupDenoms l ↔ x ∈ l := by
  induction l with
  | nil => simp [sortDedupDenoms]
  | cons e es ih =>
    simp only [sortDedupDenoms] at ih ⊢
    rw [List.foldr_cons, mem_insertDenom, ih, List.mem_cons]

theorem nodup_sortDedupDenoms (l : List String) : (sortDedupDenoms l).Nodup :=
  (sorted_sortDedupDenoms l).nodup

theorem amountOf_filterMap (L : List String) (g : String → Int) (hnd : L.Nodup)
    (d : String) :
    amountOf (L.filterMap (fun x => if g x = 0 then none else some ⟨x, g x⟩)) d
      = if d ∈ L then g d else 0 := by
  induction L with
  | nil => simp [amountOf_nil]
  | cons x L ih =>
    rw [List.nodup_cons] at hnd
    rw [List.filterMap_cons]
    by_cases hx : g x = 0
    · rw [if_pos hx, ih hnd.2]
      by_cases hdx : d = x
      · subst hdx
        rw [if_neg hnd.1, if_pos (List.mem_cons_self _ _), hx]
      · simp [List.mem_cons, hdx]
    · rw [if_neg hx, amountOf_cons, ih hnd.2]
      by_cases hdx : d = x
      · subst hdx
        rw [if_pos rfl, if_neg hnd.1, if_pos (List.mem_cons_self _ _)]
        ring
      · rw [if_neg (fun hc => hdx hc.symm)]
        simp [List.mem_cons, hdx]

theorem amountOf_add (a b : Coins) (d : String) :
    amountOf (add a b) d = amountOf a d + amountOf b d := by
  rw [add, amountOf_filterMap _ _ (nodup_sortDedupDenoms _) d]
  by_cases hd : d ∈ sortDedupDenoms ((a ++ b).map Coin.denom)
  · rw [if_pos hd, amountOf_append]
  · rw [if_neg hd]
    have hmem : d ∉ (a ++ b).map Coin.denom :=
      fun hc => hd ((mem_sortDedupDenoms _ d).mpr hc)
    rw [List.map_append, List.mem_append] at hmem
    push_neg at hmem
    rw [amountOf_eq_zero hmem.1, amountOf_eq_zero hmem.2]
    ring

theorem denoms_filterMap_sublist (L : List String) (f : String → Option Coin)
    (hf : ∀ d c, f d = some c → c.denom = d) :
    ((L.filterMap f).map Coin.denom).Sublist L := by
  induction L with
  | nil => simp
  | cons d L ih =>
    rw [List.filterMap_cons]
    cases hfd : f d with
    | none => exact ih.cons d
    | some c =>
      rw [List.map_cons, hf d c hfd]
      exact ih.cons₂ d

theorem canonical_add (a b : Coins) : Canonical (add a b) := by
  constructor
  · have hsub := denoms_filterMap_sublist
      (sortDedupDenoms ((a ++ b).map Coin.denom))
      (fun x => if amountOf (a ++ b) x = 0 then none
                else some { denom := x, amount := amountOf (a ++ b) x })
      (by
        intro d c hdc
        have hdc2 : (if amountOf (a ++ b) d = 0 then none
            else some ({ denom := d, amount := amountOf (a ++ b) d } : Coin))
              = some c := hdc
        by_cases h : amountOf (a ++ b) d = 0
        · rw [if_pos h] at hdc2
          exact absurd hdc2 (by simp)
        · rw [if_neg h] at hdc2
          cases hdc2
          rfl)
    exact List.Pairwise.sublist hsub (sorted_sortDedupDenoms _)
  · intro c hc
    rcases List.mem_filterMap.mp hc with ⟨d, _, hd⟩
    have hd2 : (if amountOf (a ++ b) d = 0 then none
        else some ({ denom := d, amount := amountOf (a ++ b) d } : Coin))
          = some c := hd
    by_cases h : amountOf (a ++ b) d = 0
    · rw [if_pos h] at hd2
      exact absurd hd2 (by simp)
    · rw [if_neg h] at hd2
      cases hd2
      exact h

theorem head_denom_not_mem {c : Coin} {cs : Coins}
    (h : ((c :: cs).map Coin.denom).Sorted (· < ·)) :
    c.denom ∉ cs.map Coin.denom := by
  rw [List.map_cons, List.sorted_cons] at h
  intro hc
  exact lt_irrefl c.denom (h.1 c.denom hc)

theorem not_mem_of_lt_head {c : Coin} {cs : Coins} {d : String}
    (h : ((c :: cs).map Coin.denom).Sorted (· < ·)) (hd : d < c.denom) :
    d ∉ (c :: cs).map Coin.denom := by
  rw [List.map_cons, List.sorted_cons] at h
  rw [List.map_cons, List.mem_cons]
  push_neg
  constructor
  · exact ne_of_lt hd
  · intro hc
    exact absurd (lt_trans hd (h.1 d hc)) (lt_irrefl d)

theorem canonical_head_amountOf {c : Coin} {cs : Coins}
    (h : Canonical (c :: cs)) : amountOf (c :: cs) c.denom = c.amount := by
  rw [amountOf_cons, if_pos rfl, amountOf_eq_zero (head_denom_not_mem h.1)]
  ring

theorem Canonical.tail {c : Coin} {cs : Coins} (h : Canonical (c :: cs)) :
    Canonical cs := by
  obtain ⟨h1, h2⟩ := h
  rw [List.map_cons, List.sorted_cons] at h1
  exact ⟨h1.2, fun x hx => h2 x (List.mem_cons_of_mem c hx)⟩

/-- Two canonical coin lists with the same amount in every denomination
are equal. -/
theorem canonical_ext (a : Coins) : ∀ b : Coins, Canonical a → Canonical b →
    (∀ d, amountOf a d = amountOf b d) → a = b := by
  induction a with
  | nil =>
    intro b _ hb h
    cases b with
    | nil => rfl
    | cons c bs =>
      exfalso
      have h0 := h c.denom
      rw [amountOf_nil, canonical_head_amountOf hb] at h0
      exact hb.2 c (List.mem_cons_self c bs) h0.symm
  | cons c as ih =>
    intro b ha hb h
    cases b with
    | nil =>
      exfalso
      have h0 := h c.denom
      rw [amountOf_nil, canonical_head_amountOf ha] at h0
      exact ha.2 c (List.mem_cons_self c as) h0
    | cons e bs =>
      have hca : Canonical as := ha.tail
      have hcb : Canonical bs := hb.tail
      rcases lt_trichotomy c.denom e.denom with hlt | heq | hgt
      · exfalso
        have h0 := h c.denom
        rw [canonical_head_amountOf ha,
            amountOf_eq_zero (not_mem_of_lt_head hb.1 hlt)] at h0
        exact ha.2 c (List.mem_cons_self c as) h0
      · have hamt : c.amount = e.amount := by
          have h0 := h c.denom
          rw [canonical_head_amountOf ha] at h0
          have h1 : amountOf (e :: bs) c.denom = e.amount := by
            rw [heq]
            exact canonical_head_amountOf hb
          rw [h1] at h0
          exact h0
        have hce : c = e := by
          cases c
          cases e
          simp only at heq hamt
          rw [heq, hamt]
        have htail : ∀ d, amountOf as d = amountOf bs d := by
          intro d
          by_cases hdc : d = c.denom
          · subst hdc
            rw [amountOf_eq_zero (head_denom_not_mem ha.1),
                amountOf_eq_zero (show c.denom ∉ bs.map Coin.denom by
                  rw [heq]
                  exact head_denom_not_mem hb.1)]
          · have h0 := h d
            rw [amountOf_cons, amountOf_cons,
                if_neg (fun hc => hdc hc.symm),
                if_neg (fun hc => hdc (by rw [← heq] at hc; exact hc.symm))] at h0
            simpa using h0
        rw [hce, ih bs hca hcb htail]
      · exfalso
        have h0 := h e.denom
        rw [canonical_head_amountOf hb,
            amountOf_eq_zero (not_mem_of_lt_head ha.1 hgt)] at h0
        exact hb.2 e (List.mem_cons_self e bs) h0.symm

end Coins

/-! ## Balances and supply (`createBalances`, `calculateTotalSupply`,
`addBondedModuleAccountToFundedBalances`) -/

/-- `banktypes.Balance`: an account address together with its coins. -/
structure Balance where
  address : String
  coins : Coins
deriving Repr, DecidableEq

/-- `sdktypes.NewCoins` applied to a single coin (as `createBalances`
does): the coin is validated and dropped when its amount is zero. -/
def sdkNewCoinsSingle (coin : Coin) : Coins :=
  if coin.amount = 0 then [] else [coin]

/-- `createBalances`: pair every account with the given coin. -/
def createBalances (accounts : List String) (coin : Coin) : List Balance :=
  accounts.map (fun acc => { address := acc, coins := sdkNewCoinsSingle coin })

/-- `authtypes.BaseAccount` as built by `createGenesisAccounts`
(`NewBaseAccount(acc, nil, 0, 0)`): no public key, account number 0,
sequence 0. -/
structure BaseAccount where
  address : String
  accountNumber : Nat
  sequence : Nat
deriving Repr, DecidableEq

/-- `createGenesisAccounts`: one zeroed base account per address. -/
def createGenesisAccounts (accounts : List String) : List BaseAccount :=
  accounts.map (fun acc => { address := acc, accountNumber := 0, sequence := 0 })

/-- `calculateTotalSupply`: fold coin addition over the balances,
starting from the empty coin set (`sdktypes.NewCoins()`). -/
def calculateTotalSupply (fundedAccountsBalances : List Balance) : Coins :=
  fundedAccountsBalances.foldl
    (fun totalSupply balance => Coins.add totalSupply balance.coins) []

/-- `authtypes.NewModuleAddress(name).String()`, modelled as an
injective encoding of the module name (the SDK derives a distinct hash
address per module name). -/
def newModuleAddress (name : String) : String := "module-" ++ name

/-- `stakingtypes.BondedPoolName`. -/
def bondedPoolName : String := "bonded_tokens_pool"

/-- `addBondedModuleAccountToFundedBalances`: append one balance holding
exactly the bonded coin, addressed to the staking bonded-pool module
account. -/
def addBondedModuleAccountToFundedBalances
    (fundedAccountsBalances : List Balance) (totalBonded : Coin) : List Balance :=
  fundedAccountsBalances ++
    [{ address := newModuleAddress bondedPoolName, coins := [totalBonded] }]

theorem amountOf_totalSupply_foldl (B : List Balance) (init : Coins) (d : String) :
    Coins.amountOf
        (B.foldl (fun totalSupply balance => Coins.add totalSupply balance.coins) init) d
      = Coins.amountOf init d + (B.map (fun bal => Coins.amountOf bal.coins d)).sum := by
  induction B generalizing init with
  | nil => simp
  | cons bal B ih =>
    rw [List.foldl_cons, ih, Coins.amountOf_add, List.map_cons, List.sum_cons]
    ring

theorem canonical_totalSupply_foldl (B : List Balance) (init : Coins)
    (h : Coins.Canonical init) :
    Coins.Canonical
      (B.foldl (fun totalSupply balance => Coins.add totalSupply balance.coins) init) := by
  induction B generalizing init with
  | nil => exact h
  | cons bal B ih =>
    rw [List.foldl_cons]
    exact ih _ (Coins.canonical_add _ _)

theorem canonical_nil : Coins.Canonical [] := by
  constructor
  · simp
  · intro c hc
    exact absurd hc (List.not_mem_nil c)

theorem canonical_calculateTotalSupply (B : List Balance) :
    Coins.Canonical (calculateTotalSupply B) :=
  canonical_totalSupply_foldl B [] canonical_nil

theorem amountOf_calculateTotalSupply (B : List Balance) (d : String) :
    Coins.amountOf (calculateTotalSupply B) d
      = (B.map (fun bal => Coins.amountOf bal.coins d)).sum := by
  rw [calculateTotalSupply, amountOf_totalSupply_foldl, Coins.amountOf_nil]
  ring

/-! ## Validator set and signers (`createValidatorSetAndSigners`) -/

/-- A cometbft consensus public key; `Address()` derives the account
address from the key bytes, so the address is kept as the key's
observable content. -/
structure PubKey where
  address : String
deriving Repr, DecidableEq

/-- `mock.PV`: a private validator whose `GetPubKey` returns its public
key together with a nil error (the source discards that error slot). -/
structure PrivValidator where
  pubKey : PubKey
deriving Repr, DecidableEq

/-- `cmttypes.Validator`: `NewValidator(pubKey, votingPower)` derives
the validator address from the public key. -/
structure TmValidator where
  address : String
  pubKey : PubKey
  votingPower : Int
deriving Repr, DecidableEq

/-- `cmttypes.NewValidator`. -/
def TmValidator.new (pk : PubKey) (votingPower : Int) : TmValidator :=
  { address := pk.address, pubKey := pk, votingPower := votingPower }

/-- `cmttypes.ValidatorSet` built by `NewValidatorSet`.  CometBFT
additionally copies the validators and initialises proposer priorities,
which changes neither membership nor powers, so only the validator list
is kept. -/
structure ValidatorSet where
  validators : List TmValidator
deriving Repr, DecidableEq

/-- The Go `map[string]cmttypes.PrivValidator`, modelled as an
association list: inserting an existing key replaces its entry,
inserting a fresh key appends. -/
abbrev SignerMap := List (String × PrivValidator)

/-- Go map assignment `m[k] = v`. -/
def signerInsert (m : SignerMap) (k : String) (v : PrivValidator) : SignerMap :=
  if k ∈ m.map Prod.fst then
    m.map (fun kv => if kv.1 = k then (k, v) else kv)
  else m ++ [(k, v)]

/-- One iteration of the loop in `createValidatorSetAndSigners`:
`privVal := mock.NewPV(); pubKey, _ := privVal.GetPubKey();
validator := cmttypes.NewValidator(pubKey, 1); append; signers[addr] = privVal`.
`gen i` stands for the private validator returned by the `i`-th call of
`mock.NewPV` (the mock draws a fresh random ed25519 key). -/
def valSignerStep (gen : Nat → PrivValidator)
    (acc : List TmValidator × SignerMap) (i : Nat) :
    List TmValidator × SignerMap :=
  let privVal := gen i
  let pubKey := privVal.pubKey
  let validator := TmValidator.new pubKey 1
  (acc.1 ++ [validator], signerInsert acc.2 pubKey.address privVal)

/-- `createValidatorSetAndSigners`, parametrised by the key-generation
oracle `gen`. -/
def createValidatorSetAndSigners (gen : Nat → PrivValidator)
    (numberOfValidators : Nat) : ValidatorSet × SignerMap :=
  let res := (List.range numberOfValidators).foldl (valSignerStep gen) ([], [])
  ({ validators := res.1 }, res.2)

/-! ## Staking validators (`createStakingValidator`,
`createStakingValidators`, `createDelegations`) -/

/-- An SDK-format consensus public key
(`cryptotypes.PubKey` as produced by `cryptocodec.FromTmPubKeyInterface`). -/
structure SdkPubKey where
  keyData : String
deriving Repr, DecidableEq

/-- `codectypes.Any` wrapping a public key: the self-describing protobuf
envelope built by `codectypes.NewAnyWithValue`. -/
structure AnyPubKey where
  typeUrl : String
  value : SdkPubKey
deriving Repr, DecidableEq

/-- `stakingtypes.BondStatus`. -/
inductive BondStatus where
  | unspecified
  | unbonded
  | unbonding
  | bonded
deriving Repr, DecidableEq

/-- `stakingtypes.Description` (zero value: all fields empty). -/
structure Description where
  moniker : String := ""
  identity : String := ""
  website : String := ""
  securityContact : String := ""
  details : String := ""
deriving Repr, DecidableEq

/-- `stakingtypes.CommissionRates` as set by
`stakingtypes.NewCommission` (the SDK's legacy decimals are modelled as
rationals). -/
structure CommissionRates where
  rate : Rat
  maxRate : Rat
  maxChangeRate : Rat
deriving Repr, DecidableEq

/-- `sdktypes.ValAddress(addr).String()`: the bech32 validator-operator
rendering of an address, modelled as an injective re-encoding. -/
def valAddressString (addr : String) : String := "evmosvaloper-" ++ addr

/-- `stakingtypes.Validator` with the fields `createStakingValidator`
sets.  `UnbondingTime` is kept as Unix nanoseconds
(`time.Unix(0, 0).UTC()` is 0). -/
structure StakingValidator where
  operatorAddress : String
  consensusPubkey : AnyPubKey
  jailed : Bool
  status : BondStatus
  tokens : Int
  delegatorShares : Rat
  description : Description
  unbondingHeight : Int
  unbondingTime : Int
  commission : CommissionRates
  minSelfDelegation : Int
deriving Repr, DecidableEq

/-- `createStakingValidator`, parametrised by the two fallible external
conversions it calls: `conv` is `cryptocodec.FromTmPubKeyInterface` and
`pack` is `codectypes.NewAnyWithValue`.  The Go early returns
`stakingtypes.Validator{}, err` are the `Except.error` branches. -/
def createStakingValidator (conv : PubKey → Except String SdkPubKey)
    (pack : SdkPubKey → Except String AnyPubKey)
    (val : TmValidator) (bondedAmt : Int) : Except String StakingValidator :=
  match conv val.pubKey with
  | .error e => .error e
  | .ok pk =>
    match pack pk with
    | .error e => .error e
    | .ok pkAny =>
      .ok { operatorAddress := valAddressString val.address
            consensusPubkey := pkAny
            jailed := false
            status := .bonded
            tokens := bondedAmt
            delegatorShares := 1
            description := {}
            unbondingHeight := 0
            unbondingTime := 0
            commission := { rate := 0, maxRate := 0, maxChangeRate := 0 }
            minSelfDelegation := 0 }

/-- `createStakingValidators`: the loop over the tm validators,
propagating the first error. -/
def createStakingValidators (conv : PubKey → Except String SdkPubKey)
    (pack : SdkPubKey → Except String AnyPubKey) :
    List TmValidator → Int → Except String (List StakingValidator)
  | [], _ => .ok []
  | val :: rest, bondedAmt =>
    match createStakingValidator conv pack val bondedAmt with
    | .error e => .error e
    | .ok validator =>
      match createStakingValidators conv pack rest bondedAmt with
      | .error e => .error e
      | .ok validators => .ok (validator :: validators)

/-- `stakingtypes.Delegation` as built by `stakingtypes.NewDelegation`. -/
structure Delegation where
  delegatorAddress : String
  validatorAddress : String
  shares : Rat
deriving Repr, DecidableEq

/-- `createDelegations`: one delegation per validator, each with shares
fixed at 1. -/
def createDelegations (tmValidators : List TmValidator) (fromAccount : String) :
    List Delegation :=
  tmValidators.map (fun val =>
    { delegatorAddress := fromAccount
      validatorAddress := valAddressString val.address
      shares := 1 })

/-! ## Module genesis sections and the genesis map -/

/-- `stakingtypes.Params`; `stakingtypes.DefaultParams()` provides the
cosmos-sdk defaults, of which `setStakingGenesisState` overwrites only
the bond denomination. -/
structure StakingParams where
  unbondingTimeSeconds : Int
  maxValidators : Nat
  maxEntries : Nat
  historicalEntries : Nat
  bondDenom : String
  minCommissionRate : Rat
deriving Repr, DecidableEq

/-- `stakingtypes.DefaultParams()` (cosmos-sdk v0.47 defaults: three
weeks of unbonding, 100 validators, 7 entries, 10000 historical
entries, bond denom "stake", zero minimum commission). -/
def stakingDefaultParams : StakingParams :=
  { unbondingTimeSeconds := 1814400
    maxValidators := 100
    maxEntries := 7
    historicalEntries := 10000
    bondDenom := "stake"
    minCommissionRate := 0 }

/-- `stakingtypes.GenesisState` restricted to the content
`stakingtypes.NewGenesisState(params, validators, delegations)` fills
in (its remaining fields are zero values). -/
structure StakingGenesisRecord where
  params : StakingParams
  validators : List StakingValidator
  delegations : List Delegation
deriving Repr, DecidableEq

/-- `authtypes.GenesisState` as built by
`authtypes.NewGenesisState(authtypes.DefaultParams(), genAccounts)`:
default parameters plus the account list. -/
structure AuthGenesisRecord where
  accounts : List BaseAccount
deriving Repr, DecidableEq

/-- The inflation module's `Params`.  `DefaultParams` lives in
`x/inflation/v1/types` of this repository (not under the sources being
verified); only the fields `setup.go` reads or writes are kept:
the mint denomination and the inflation-enable flag.
Modelled from the spec: inflation defaults are overridden to
"inflation disabled" by the composer. -/
structure InflationParams where
  mintDenom : String
  enableInflation : Bool
deriving Repr, DecidableEq

/-- `infltypes.DefaultParams()` (default mint denom of the chain, with
inflation enabled by default). -/
def inflationDefaultParams : InflationParams :=
  { mintDenom := "aevmos", enableInflation := true }

/-- `infltypes.GenesisState` with the fields
`infltypes.NewGenesisState(params, period, epochIdentifier,
epochsPerPeriod, skippedEpochs)` populates. -/
structure InflationGenesisRecord where
  params : InflationParams
  period : Nat
  epochIdentifier : String
  epochsPerPeriod : Int
  skippedEpochs : Nat
deriving Repr, DecidableEq

/-- `infltypes.NewGenesisState`. -/
def newInflationGenesisState (params : InflationParams) (period : Nat)
    (epochIdentifier : String) (epochsPerPeriod : Int) (skippedEpochs : Nat) :
    InflationGenesisRecord :=
  { params := params
    period := period
    epochIdentifier := epochIdentifier
    epochsPerPeriod := epochsPerPeriod
    skippedEpochs := skippedEpochs }

/-- `epochstypes.DayEpochID` (from `x/epochs/types` of this repository,
not under the sources being verified).  Modelled from the spec: the
"day" epoch identifier. -/
def dayEpochID : String := "day"

/-- `banktypes.GenesisState` as built by `banktypes.NewGenesisState`
with default params, the given balances and supply, and empty
metadata / send-enabled lists. -/
structure BankGenesisRecord where
  balances : List Balance
  supply : Coins
deriving Repr, DecidableEq

/-- `evmtypes.GenesisState` (from `x/evm/types` of this repository, not
under the sources being verified).  `setup.go` never inspects its
fields — it only type-asserts and re-serializes it — so it is kept as a
tagged opaque payload.  Modelled from the spec: the EVM module's
genesis override value. -/
structure EvmGenesisRecord where
  payload : String
deriving Repr, DecidableEq

/-- A serialized genesis section (`json.RawMessage` produced by
`evmosApp.AppCodec().MustMarshalJSON`), modelled symbolically: each
marshalled value is wrapped injectively in the constructor of its
module. -/
inductive RawMessage where
  | stakingMsg (g : StakingGenesisRecord)
  | authMsg (g : AuthGenesisRecord)
  | inflationMsg (g : InflationGenesisRecord)
  | bankMsg (g : BankGenesisRecord)
  | evmMsg (g : EvmGenesisRecord)
deriving Repr, DecidableEq

/-- `types.GenesisState = map[string]json.RawMessage`, keyed by module
name. -/
abbrev GenesisState := String → Option RawMessage

/-- Go map assignment `genesisState[k] = v`. -/
def setGenEntry (g : GenesisState) (k : String) (v : RawMessage) : GenesisState :=
  fun k2 => if k2 = k then some v else g k2

/-- A dynamically-typed override value stored in `CustomGenesisState`
(`map[string]interface{}`): the constructor plays the role of the Go
dynamic type. -/
inductive CustomGenValue where
  | inflationVal (g : InflationGenesisRecord)
  | evmVal (g : EvmGenesisRecord)
  | stakingVal (g : StakingGenesisRecord)
  | strVal (s : String)
deriving Repr, DecidableEq

/-- The Go `%T` verb: the name of the dynamic type of an override. -/
def CustomGenValue.typeName : CustomGenValue → String
  | .inflationVal _ => "*inflationtypes.GenesisState"
  | .evmVal _ => "*evmtypes.GenesisState"
  | .stakingVal _ => "*stakingtypes.GenesisState"
  | .strVal _ => "string"

/-- `CustomGenesisState`: module name to caller-supplied override. -/
abbrev CustomGenesisState := String → Option CustomGenValue

/-- Module name constants (`stakingtypes.ModuleName` and so on). -/
def stakingModuleName : String := "staking"

def authModuleName : String := "auth"

def bankModuleName : String := "bank"

def inflationModuleName : String := "inflation"

def evmModuleName : String := "evm"

/-- `StakingCustomGenesisState`. -/
structure StakingCustomGenesisState where
  denom : String
  validators : List StakingValidator
  delegations : List Delegation
deriving Repr, DecidableEq

/-- `setStakingGenesisState` (the `evmosApp` parameter only supplies
the codec, which the symbolic serialization replaces). -/
def setStakingGenesisState (genesisState : GenesisState)
    (overwriteParams : StakingCustomGenesisState) : GenesisState :=
  let stakingParams := { stakingDefaultParams with bondDenom := overwriteParams.denom }
  let stakingGenesis : StakingGenesisRecord :=
    { params := stakingParams
      validators := overwriteParams.validators
      delegations := overwriteParams.delegations }
  setGenEntry genesisState stakingModuleName (.stakingMsg stakingGenesis)

/-- `setAuthGenesisState`. -/
def setAuthGenesisState (genesisState : GenesisState)
    (genAccounts : List BaseAccount) : GenesisState :=
  setGenEntry genesisState authModuleName (.authMsg { accounts := genAccounts })

/-- `BankCustomGenesisState`. -/
structure BankCustomGenesisState where
  totalSupply : Coins
  balances : List Balance
deriving Repr, DecidableEq

/-- `setBankGenesisState`. -/
def setBankGenesisState (genesisState : GenesisState)
    (overwriteParams : BankCustomGenesisState) : GenesisState :=
  setGenEntry genesisState bankModuleName
    (.bankMsg { balances := overwriteParams.balances
                supply := overwriteParams.totalSupply })

/-- `setInflationGenesisState`.  The Go function receives the genesis
map by reference and may mutate it before returning it; the model
returns the pair (state of the map object after the call, returned
value).  The Go error return `nil, fmt.Errorf(...)` (a nil map plus an
error) is `Except.error`. -/
def setInflationGenesisState (genesisState : GenesisState)
    (customGenesis : CustomGenesisState) :
    GenesisState × Except String GenesisState :=
  match customGenesis inflationModuleName with
  | none =>
    let inflationParams := { inflationDefaultParams with enableInflation := false }
    let defaultGen := newInflationGenesisState inflationParams 0 dayEpochID 365 0
    let g2 := setGenEntry genesisState inflationModuleName (.inflationMsg defaultGen)
    (g2, .ok g2)
  | some custGen =>
    match custGen with
    | .inflationVal inflGenesis =>
      let g2 := setGenEntry genesisState inflationModuleName (.inflationMsg inflGenesis)
      (g2, .ok g2)
    | other =>
      (genesisState,
       .error ("invalid type " ++ other.typeName ++ " for inflation genesis state"))

/-- `setEVMGenesisState`, with the same state-passing convention as
`setInflationGenesisState`. -/
def setEVMGenesisState (genesisState : GenesisState)
    (customGenesis : CustomGenesisState) :
    GenesisState × Except String GenesisState :=
  match customGenesis evmModuleName with
  | none => (genesisState, .ok genesisState)
  | some custGen =>
    match custGen with
    | .evmVal evmGenesis =>
      let g2 := setGenEntry genesisState evmModuleName (.evmMsg evmGenesis)
      (g2, .ok g2)
    | other =>
      (genesisState,
       .error ("invalid type " ++ other.typeName ++ " for evm genesis state"))

/-! ## Theorems -/

theorem foldl_valSignerStep (gen : Nat → PrivValidator) (n : Nat)
    (hinj : ∀ i < n, ∀ j < n,
      (gen i).pubKey.address = (gen j).pubKey.address → i = j) :
    (List.range n).foldl (valSignerStep gen) ([], [])
      = ((List.range n).map (fun i => TmValidator.new (gen i).pubKey 1),
         (List.range n).map (fun i => ((gen i).pubKey.address, gen i))) := by
  induction n with
  | zero => rfl
  | succ n ih =>
    have hinj' : ∀ i < n, ∀ j < n,
        (gen i).pubKey.address = (gen j).pubKey.address → i = j :=
      fun i hi j hj => hinj i (Nat.lt_succ_of_lt hi) j (Nat.lt_succ_of_lt hj)
    have hmem : (gen n).pubKey.address ∉
        ((List.range n).map (fun i => ((gen i).pubKey.address, gen i))).map Prod.fst := by
      intro hmem
      rw [List.map_map] at hmem
      rcases List.mem_map.mp hmem with ⟨i, hi, haddr⟩
      have hin : i < n := List.mem_range.mp hi
      have hieq : i = n :=
        hinj i (Nat.lt_succ_of_lt hin) n (Nat.lt_succ_self n) haddr
      omega
    rw [List.range_succ, List.foldl_append, ih hinj', List.foldl_cons,
        List.foldl_nil, List.map_append, List.map_append]
    show ((List.range n).map (fun i => TmValidator.new (gen i).pubKey 1)
            ++ [TmValidator.new (gen n).pubKey 1],
          signerInsert ((List.range n).map (fun i => ((gen i).pubKey.address, gen i)))
            (gen n).pubKey.address (gen n)) = _
    rw [signerInsert, if_neg hmem]
    rfl

/-- C1: for every non-negative validator count `n` (with the mock key
generator drawing pairwise distinct addresses), the factory returns a
validator set of exactly `n` validators, each with voting power 1, and
a signer map of exactly `n` entries whose keys are the string addresses
of the corresponding validators' public keys; for `n = 0` both are
empty. -/
theorem createValidatorSetAndSigners_spec (gen : Nat → PrivValidator) (n : Nat)
    (hinj : ∀ i < n, ∀ j < n,
      (gen i).pubKey.address = (gen j).pubKey.address → i = j) :
    (createValidatorSetAndSigners gen n).1.validators.length = n ∧
    (∀ v ∈ (createValidatorSetAndSigners gen n).1.validators, v.votingPower = 1) ∧
    (createValidatorSetAndSigners gen n).2.length = n ∧
    (createValidatorSetAndSigners gen n).2.map Prod.fst
      = (createValidatorSetAndSigners gen n).1.validators.map
          (fun v => v.pubKey.address) ∧
    (n = 0 → (createValidatorSetAndSigners gen n).1.validators = []
      ∧ (createValidatorSetAndSigners gen n).2 = []) := by
  have hcf := foldl_valSignerStep gen n hinj
  simp only [createValidatorSetAndSigners, hcf]
  refine ⟨by simp, ?_, by simp, ?_, ?_⟩
  · intro v hv
    rcases List.mem_map.mp hv with ⟨i, _, hvi⟩
    rw [← hvi]
    rfl
  · rw [List.map_map, List.map_map]
    rfl
  · intro hn
    subst hn
    exact ⟨rfl, rfl⟩

/-- A concrete two-key generator with distinct addresses. -/
def genW : Nat → PrivValidator :=
  fun i => { pubKey := { address := if i = 0 then "addr-a" else "addr-b" } }

/-- Witness for C1 at `n = 2` with the concrete generator `genW`. -/
theorem createValidatorSetAndSigners_spec_witness :
    (createValidatorSetAndSigners genW 2).1.validators.length = 2 ∧
    (∀ v ∈ (createValidatorSetAndSigners genW 2).1.validators, v.votingPower = 1) ∧
    (createValidatorSetAndSigners genW 2).2.length = 2 ∧
    (createValidatorSetAndSigners genW 2).2.map Prod.fst
      = (createValidatorSetAndSigners genW 2).1.validators.map
          (fun v => v.pubKey.address) ∧
    (2 = 0 → (createValidatorSetAndSigners genW 2).1.validators = []
      ∧ (createValidatorSetAndSigners genW 2).2 = []) :=
  createValidatorSetAndSigners_spec genW 2 (by decide)

/-- C2: across the operations of the file, an error reaches the caller
in exactly two situations: public-key format conversion failure while
building a staking validator (either conversion step of
`createStakingValidator`, propagated unchanged by
`createStakingValidators`), and a wrongly-typed custom genesis override
in `setInflationGenesisState` / `setEVMGenesisState`.  Every other
operation of the embedding returns a plain (error-free) value. -/
theorem errors_exactly_two_situations :
    (∀ (conv : PubKey → Except String SdkPubKey)
       (pack : SdkPubKey → Except String AnyPubKey)
       (val : TmValidator) (bondedAmt : Int),
       (∃ e, createStakingValidator conv pack val bondedAmt = .error e) ↔
         ((∃ e, conv val.pubKey = .error e) ∨
          (∃ pk e, conv val.pubKey = .ok pk ∧ pack pk = .error e))) ∧
    (∀ (g : GenesisState) (c : CustomGenesisState),
       (∃ e, (setInflationGenesisState g c).2 = .error e) ↔
         (∃ v, c inflationModuleName = some v ∧
           ∀ ig, v ≠ CustomGenValue.inflationVal ig)) ∧
    (∀ (g : GenesisState) (c : CustomGenesisState),
       (∃ e, (setEVMGenesisState g c).2 = .error e) ↔
         (∃ v, c evmModuleName = some v ∧
           ∀ eg, v ≠ CustomGenValue.evmVal eg)) ∧
    (∀ (conv : PubKey → Except String SdkPubKey)
       (pack : SdkPubKey → Except String AnyPubKey)
       (vals : List TmValidator) (bondedAmt : Int),
       (∃ e, createStakingValidators conv pack vals bondedAmt = .error e) ↔
         (∃ val ∈ vals,
           ∃ e, createStakingValidator conv pack val bondedAmt = .error e)) := by
  refine ⟨?_, ?_, ?_, ?_⟩
  · intro conv pack val bondedAmt
    cases hconv : conv val.pubKey with
    | error e => simp [createStakingValidator, hconv]
    | ok pk =>
      cases hpack : pack pk with
      | error e => simp [createStakingValidator, hconv, hpack]
      | ok pkAny => simp [createStakingValidator, hconv, hpack]
  · intro g c
    cases hc : c inflationModuleName with
    | none => simp [setInflationGenesisState, hc]
    | some v =>
      cases v with
      | inflationVal ig => simp [setInflationGenesisState, hc]
      | evmVal eg => simp [setInflationGenesisState, hc]
      | stakingVal sg => simp [setInflationGenesisState, hc]
      | strVal s => simp [setInflationGenesisState, hc]
  · intro g c
    cases hc : c evmModuleName with
    | none => simp [setEVMGenesisState, hc]
    | some v =>
      cases v with
      | inflationVal ig => simp [setEVMGenesisState, hc]
      | evmVal eg => simp [setEVMGenesisState, hc]
      | stakingVal sg => simp [setEVMGenesisState, hc]
      | strVal s => simp [setEVMGenesisState, hc]
  · intro conv pack vals bondedAmt
    induction vals with
    | nil => simp [createStakingValidators]
    | cons val rest ih =>
      cases hval : createStakingValidator conv pack val bondedAmt with
      | error e =>
        simp only [createStakingValidators, hval]
        constructor
        · intro _
          exact ⟨val, List.mem_cons_self val rest, e, hval⟩
        · intro _
          exact ⟨e, rfl⟩
      | ok v =>
        cases hrest : createStakingValidators conv pack rest bondedAmt with
        | error e =>
          simp only [createStakingValidators, hval, hrest]
          constructor
          · intro _
            rcases ih.mp ⟨e, hrest⟩ with ⟨w, hw, hew⟩
            exact ⟨w, List.mem_cons_of_mem val hw, hew⟩
          · intro _
            exact ⟨e, rfl⟩
        | ok vs =>
          simp only [createStakingValidators, hval, hrest]
          constructor
          · intro ⟨e, he⟩
            exact absurd he (by simp)
          · intro ⟨w, hw, e, he⟩
            rcases List.mem_cons.mp hw with rfl | hw
            · rw [hval] at he
              exact absurd he (by simp)
            · rcases ih.mpr ⟨w, hw, e, he⟩ with ⟨e2, he2⟩
              rw [hrest] at he2
              exact absurd he2 (by simp)

/-- C3: for every balance list (with each balance's coins in the
canonical sorted form cosmos-sdk coin arithmetic requires), the total
supply holds, in every denomination, exactly the sum of the balances'
amounts in that denomination, and the result does not depend on the
order of the balance list. -/
theorem calculateTotalSupply_spec (B B2 : List Balance)
    (_hB : ∀ bal ∈ B, Coins.Canonical bal.coins) (hperm : B.Perm B2) :
    (∀ d, Coins.amountOf (calculateTotalSupply B) d
        = (B.map (fun bal => Coins.amountOf bal.coins d)).sum) ∧
    calculateTotalSupply B = calculateTotalSupply B2 := by
  refine ⟨fun d => amountOf_calculateTotalSupply B d, ?_⟩
  apply Coins.canonical_ext _ _ (canonical_calculateTotalSupply B)
    (canonical_calculateTotalSupply B2)
  intro d
  rw [amountOf_calculateTotalSupply, amountOf_calculateTotalSupply]
  exact (hperm.map _).sum_eq

/-- Concrete balances for the C3 witness. -/
def balancesW : List Balance :=
  [{ address := "acc1", coins := [{ denom := "aevmos", amount := 5 }] },
   { address := "acc2", coins := [{ denom := "stake", amount := 2 }] }]

/-- The same balances in the opposite order. -/
def balancesW2 : List Balance :=
  [{ address := "acc2", coins := [{ denom := "stake", amount := 2 }] },
   { address := "acc1", coins := [{ denom := "aevmos", amount := 5 }] }]

/-- Witness for C3 at a concrete two-balance list and its reversal. -/
theorem calculateTotalSupply_spec_witness :
    (∀ bal ∈ balancesW, Coins.Canonical bal.coins) ∧
    balancesW.Perm balancesW2 ∧
    ((∀ d, Coins.amountOf (calculateTotalSupply balancesW) d
        = (balancesW.map (fun bal => Coins.amountOf bal.coins d)).sum) ∧
     calculateTotalSupply balancesW = calculateTotalSupply balancesW2) :=
  ⟨by decide, by decide,
   calculateTotalSupply_spec balancesW balancesW2 (by decide) (by decide)⟩

/-- C4: appending the bonded-pool balance adds exactly one entry,
addressed to the staking bonded-pool module account and holding exactly
the bonded coin, and the total supply of the result is the total supply
of the input plus the bonded coin. -/
theorem addBondedModuleAccountToFundedBalances_spec
    (B : List Balance) (c : Coin) :
    (addBondedModuleAccountToFundedBalances B c).length = B.length + 1 ∧
    (addBondedModuleAccountToFundedBalances B c).getLast? =
      some { address := newModuleAddress bondedPoolName, coins := [c] } ∧
    calculateTotalSupply (addBondedModuleAccountToFundedBalances B c)
      = Coins.add (calculateTotalSupply B) [c] := by
  refine ⟨by simp [addBondedModuleAccountToFundedBalances], ?_, ?_⟩
  · rw [addBondedModuleAccountToFundedBalances, List.getLast?_concat]
  · rw [addBondedModuleAccountToFundedBalances, calculateTotalSupply,
        calculateTotalSupply, List.foldl_append, List.foldl_cons, List.foldl_nil]

theorem setInflation_error_of_mismatch (g : GenesisState)
    (c : CustomGenesisState) (v : CustomGenValue)
    (h : c inflationModuleName = some v)
    (hne : ∀ ig, v ≠ CustomGenValue.inflationVal ig) :
    setInflationGenesisState g c
      = (g, .error ("invalid type " ++ v.typeName
          ++ " for inflation genesis state")) := by
  cases v with
  | inflationVal ig => exact absurd rfl (hne ig)
  | evmVal eg => simp [setInflationGenesisState, h]
  | stakingVal sg => simp [setInflationGenesisState, h]
  | strVal s => simp [setInflationGenesisState, h]

theorem setEVM_error_of_mismatch (g : GenesisState)
    (c : CustomGenesisState) (v : CustomGenValue)
    (h : c evmModuleName = some v)
    (hne : ∀ eg, v ≠ CustomGenValue.evmVal eg) :
    setEVMGenesisState g c
      = (g, .error ("invalid type " ++ v.typeName
          ++ " for evm genesis state")) := by
  cases v with
  | evmVal eg => exact absurd rfl (hne eg)
  | inflationVal ig => simp [setEVMGenesisState, h]
  | stakingVal sg => simp [setEVMGenesisState, h]
  | strVal s => simp [setEVMGenesisState, h]

/-- C5: a custom inflation (resp. EVM) override of the wrong dynamic
type makes `setInflationGenesisState` (resp. `setEVMGenesisState`)
return a type-mismatch error; a correctly typed override is serialized
and installed verbatim under the module's key. -/
theorem setGenesis_override_spec (g : GenesisState) (c : CustomGenesisState)
    (v : CustomGenValue) :
    (c inflationModuleName = some v →
      ((∀ ig, v ≠ CustomGenValue.inflationVal ig) →
         ∃ e, (setInflationGenesisState g c).2 = .error e) ∧
      (∀ ig, v = CustomGenValue.inflationVal ig →
         (setInflationGenesisState g c).2
           = .ok (setGenEntry g inflationModuleName (.inflationMsg ig)) ∧
         (setInflationGenesisState g c).1 inflationModuleName
           = some (.inflationMsg ig))) ∧
    (c evmModuleName = some v →
      ((∀ eg, v ≠ CustomGenValue.evmVal eg) →
         ∃ e, (setEVMGenesisState g c).2 = .error e) ∧
      (∀ eg, v = CustomGenValue.evmVal eg →
         (setEVMGenesisState g c).2
           = .ok (setGenEntry g evmModuleName (.evmMsg eg)) ∧
         (setEVMGenesisState g c).1 evmModuleName
           = some (.evmMsg eg))) := by
  constructor
  · intro h
    constructor
    · intro hne
      exact ⟨"invalid type " ++ v.typeName ++ " for inflation genesis state",
        by rw [setInflation_error_of_mismatch g c v h hne]⟩
    · intro ig hig
      subst hig
      constructor
      · simp [setInflationGenesisState, h]
      · simp [setInflationGenesisState, h, setGenEntry]
  · intro h
    constructor
    · intro hne
      exact ⟨"invalid type " ++ v.typeName ++ " for evm genesis state",
        by rw [setEVM_error_of_mismatch g c v h hne]⟩
    · intro eg heg
      subst heg
      constructor
      · simp [setEVMGenesisState, h]
      · simp [setEVMGenesisState, h, setGenEntry]

/-- The empty genesis map, for witnesses. -/
def g0 : GenesisState := fun _ => none

/-- A concrete inflation override for witnesses. -/
def igW : InflationGenesisRecord :=
  { params := { mintDenom := "aevmos", enableInflation := true }
    period := 1
    epochIdentifier := "week"
    epochsPerPeriod := 30
    skippedEpochs := 2 }

/-- A concrete EVM override for witnesses. -/
def egW : EvmGenesisRecord := { payload := "evm-genesis" }

/-- A custom genesis map with correctly typed inflation and EVM
overrides. -/
def cGoodW : CustomGenesisState :=
  fun k =>
    if k = inflationModuleName then some (.inflationVal igW)
    else if k = evmModuleName then some (.evmVal egW)
    else none

/-- A custom genesis map whose inflation and EVM overrides both have
the wrong dynamic type. -/
def cBadW : CustomGenesisState :=
  fun k =>
    if k = inflationModuleName then some (.strVal "oops")
    else if k = evmModuleName then some (.strVal "oops")
    else none

/-- Witness for C5: correctly typed overrides are installed, wrongly
typed overrides error, at concrete inputs. -/
theorem setGenesis_override_spec_witness :
    ((setInflationGenesisState g0 cGoodW).2
        = .ok (setGenEntry g0 inflationModuleName (.inflationMsg igW)) ∧
     (setInflationGenesisState g0 cGoodW).1 inflationModuleName
        = some (.inflationMsg igW)) ∧
    ((setEVMGenesisState g0 cGoodW).2
        = .ok (setGenEntry g0 evmModuleName (.evmMsg egW)) ∧
     (setEVMGenesisState g0 cGoodW).1 evmModuleName
        = some (.evmMsg egW)) ∧
    (∃ e, (setInflationGenesisState g0 cBadW).2 = .error e) ∧
    (∃ e, (setEVMGenesisState g0 cBadW).2 = .error e) :=
  ⟨((setGenesis_override_spec g0 cGoodW (.inflationVal igW)).1
      (by decide)).2 igW rfl,
   ((setGenesis_override_spec g0 cGoodW (.evmVal egW)).2
      (by decide)).2 egW rfl,
   ((setGenesis_override_spec g0 cBadW (.strVal "oops")).1
      (by decide)).1 (fun ig h => CustomGenValue.noConfusion h),
   ((setGenesis_override_spec g0 cBadW (.strVal "oops")).2
      (by decide)).1 (fun eg h => CustomGenValue.noConfusion h)⟩

/-- C6: with no inflation override, `setInflationGenesisState` installs
an inflation section with inflation disabled, zero skipped epochs, the
"day" epoch identifier and 365 epochs per period. -/
theorem setInflationGenesisState_default_spec (g : GenesisState)
    (c : CustomGenesisState) (h : c inflationModuleName = none) :
    ∃ gstate : InflationGenesisRecord,
      (setInflationGenesisState g c).1 inflationModuleName
          = some (.inflationMsg gstate) ∧
      (setInflationGenesisState g c).2
          = .ok (setGenEntry g inflationModuleName (.inflationMsg gstate)) ∧
      gstate.params.enableInflation = false ∧
      gstate.skippedEpochs = 0 ∧
      gstate.epochIdentifier = "day" ∧
      gstate.epochsPerPeriod = 365 := by
  refine ⟨newInflationGenesisState
      { inflationDefaultParams with enableInflation := false } 0 dayEpochID 365 0,
    ?_, ?_, rfl, rfl, rfl, rfl⟩
  · simp [setInflationGenesisState, h, setGenEntry]
  · simp [setInflationGenesisState, h]

/-- The everywhere-empty custom genesis map, for witnesses. -/
def cNoneW : CustomGenesisState := fun _ => none

/-- Witness for C6 at the empty genesis and custom-genesis maps. -/
theorem setInflationGenesisState_default_spec_witness :
    ∃ gstate : InflationGenesisRecord,
      (setInflationGenesisState g0 cNoneW).1 inflationModuleName
          = some (.inflationMsg gstate) ∧
      (setInflationGenesisState g0 cNoneW).2
          = .ok (setGenEntry g0 inflationModuleName (.inflationMsg gstate)) ∧
      gstate.params.enableInflation = false ∧
      gstate.skippedEpochs = 0 ∧
      gstate.epochIdentifier = "day" ∧
      gstate.epochsPerPeriod = 365 :=
  setInflationGenesisState_default_spec g0 cNoneW rfl

/-- C7: running `setStakingGenesisState` twice leaves the staking entry
exactly what a single run with the second arguments produces: the
default staking parameters with the second bond denomination, and only
the second validators and delegations — nothing merged from the first
run. -/
theorem setStakingGenesisState_overwrite_spec (g : GenesisState)
    (p1 p2 : StakingCustomGenesisState) :
    setStakingGenesisState (setStakingGenesisState g p1) p2 stakingModuleName
      = setStakingGenesisState g p2 stakingModuleName ∧
    setStakingGenesisState (setStakingGenesisState g p1) p2 stakingModuleName
      = some (.stakingMsg
          { params := { stakingDefaultParams with bondDenom := p2.denom }
            validators := p2.validators
            delegations := p2.delegations }) := by
  constructor
  · simp [setStakingGenesisState, setGenEntry]
  · simp [setStakingGenesisState, setGenEntry]

/-- C8: with no EVM override, `setEVMGenesisState` changes nothing: the
map object is untouched at every key and is returned as is. -/
theorem setEVMGenesisState_no_override_spec (g : GenesisState)
    (c : CustomGenesisState) (h : c evmModuleName = none) :
    setEVMGenesisState g c = (g, .ok g) ∧
    ∀ k, (setEVMGenesisState g c).1 k = g k := by
  constructor
  · simp [setEVMGenesisState, h]
  · intro k
    simp [setEVMGenesisState, h]

/-- A concrete nonempty genesis map, for the C8 witness. -/
def gAuthW : GenesisState :=
  fun k => if k = authModuleName then some (.authMsg { accounts := [] }) else none

/-- Witness for C8 at a nonempty genesis map with no EVM override. -/
theorem setEVMGenesisState_no_override_spec_witness :
    setEVMGenesisState gAuthW cNoneW = (gAuthW, .ok gAuthW) ∧
    ∀ k, (setEVMGenesisState gAuthW cNoneW).1 k = gAuthW k :=
  setEVMGenesisState_no_override_spec gAuthW cNoneW rfl

/-- C9: when both public-key conversions succeed,
`createStakingValidator` yields exactly the record of the claim (key in
a self-describing envelope, all commission rates zero, bonded, not
jailed, shares 1, zero min self-delegation, zero unbonding height and
zero Unix unbonding time), and `createStakingValidators` yields one
such record per input validator, in order. -/
theorem createStakingValidator_fields_spec
    (conv : PubKey → Except String SdkPubKey)
    (pack : SdkPubKey → Except String AnyPubKey) (bondedAmt : Int) :
    (∀ val pk pkAny, conv val.pubKey = .ok pk → pack pk = .ok pkAny →
       createStakingValidator conv pack val bondedAmt = .ok
         { operatorAddress := valAddressString val.address
           consensusPubkey := pkAny
           jailed := false
           status := .bonded
           tokens := bondedAmt
           delegatorShares := 1
           description := {}
           unbondingHeight := 0
           unbondingTime := 0
           commission := { rate := 0, maxRate := 0, maxChangeRate := 0 }
           minSelfDelegation := 0 }) ∧
    (∀ vals ws, createStakingValidators conv pack vals bondedAmt = .ok ws →
       ws.length = vals.length ∧
       ∀ i, (hi : i < vals.length) → (hw : i < ws.length) →
         createStakingValidator conv pack (vals.get ⟨i, hi⟩) bondedAmt
           = .ok (ws.get ⟨i, hw⟩)) := by
  constructor
  · intro val pk pkAny hconv hpack
    simp [createStakingValidator, hconv, hpack]
  · intro vals
    induction vals with
    | nil =>
      intro ws hws
      cases hws
      exact ⟨rfl, fun i hi _ => absurd hi (by simp)⟩
    | cons val rest ih =>
      intro ws hws
      rw [createStakingValidators] at hws
      cases hval : createStakingValidator conv pack val bondedAmt with
      | error e =>
        rw [hval] at hws
        exact absurd hws (by simp)
      | ok v =>
        rw [hval] at hws
        cases hrest : createStakingValidators conv pack rest bondedAmt with
        | error e =>
          rw [hrest] at hws
          exact absurd hws (by simp)
        | ok vs =>
          rw [hrest] at hws
          cases hws
          obtain ⟨hlen, hidx⟩ := ih vs hrest
          refine ⟨by simp [hlen], ?_⟩
          intro i hi hw
          cases i with
          | zero => simpa using hval
          | succ i =>
            have hstep := hidx i (by simpa using hi) (by simpa using hw)
            simpa using hstep

/-- An always-successful key conversion, for witnesses. -/
def convW : PubKey → Except String SdkPubKey :=
  fun pk => .ok { keyData := pk.address }

/-- An always-successful `Any` packing, for witnesses. -/
def packW : SdkPubKey → Except String AnyPubKey :=
  fun pk => .ok { typeUrl := "/cosmos.crypto.ed25519.PubKey", value := pk }

/-- A concrete consensus validator, for witnesses. -/
def valX : TmValidator := TmValidator.new { address := "addr-a" } 1

/-- The staking validator `createStakingValidator` builds from `valX`
with a bonded amount of 7. -/
def expectedW : StakingValidator :=
  { operatorAddress := valAddressString valX.address
    consensusPubkey := { typeUrl := "/cosmos.crypto.ed25519.PubKey"
                         value := { keyData := "addr-a" } }
    jailed := false
    status := .bonded
    tokens := 7
    delegatorShares := 1
    description := {}
    unbondingHeight := 0
    unbondingTime := 0
    commission := { rate := 0, maxRate := 0, maxChangeRate := 0 }
    minSelfDelegation := 0 }

/-- Witness for C9 at a concrete validator and bonded amount. -/
theorem createStakingValidator_fields_spec_witness :
    createStakingValidator convW packW valX 7 = .ok expectedW ∧
    ([expectedW] : List StakingValidator).length = [valX].length ∧
    (∀ i, (hi : i < [valX].length) → (hw : i < ([expectedW] : List StakingValidator).length) →
       createStakingValidator convW packW ([valX].get ⟨i, hi⟩) 7
         = .ok (([expectedW] : List StakingValidator).get ⟨i, hw⟩)) :=
  ⟨(createStakingValidator_fields_spec convW packW 7).1 valX
      { keyData := "addr-a" }
      { typeUrl := "/cosmos.crypto.ed25519.PubKey", value := { keyData := "addr-a" } }
      rfl rfl,
   ((createStakingValidator_fields_spec convW packW 7).2 [valX] [expectedW] rfl).1,
   ((createStakingValidator_fields_spec convW packW 7).2 [valX] [expectedW] rfl).2⟩

/-- C10: when the inflation or EVM composer hits a wrongly-typed
override, the genesis map object is left untouched and the returned
genesis value is the error (modelling the Go `return nil, err`), not a
partially updated map. -/
theorem setGenesis_error_no_mutation_spec (g : GenesisState)
    (c : CustomGenesisState) :
    (∀ v, c inflationModuleName = some v →
       (∀ ig, v ≠ CustomGenValue.inflationVal ig) →
       (setInflationGenesisState g c).1 = g ∧
       ∃ e, (setInflationGenesisState g c).2 = .error e) ∧
    (∀ v, c evmModuleName = some v →
       (∀ eg, v ≠ CustomGenValue.evmVal eg) →
       (setEVMGenesisState g c).1 = g ∧
       ∃ e, (setEVMGenesisState g c).2 = .error e) := by
  constructor
  · intro v h hne
    rw [setInflation_error_of_mismatch g c v h hne]
    exact ⟨rfl, "invalid type " ++ v.typeName ++ " for inflation genesis state", rfl⟩
  · intro v h hne
    rw [setEVM_error_of_mismatch g c v h hne]
    exact ⟨rfl, "invalid type " ++ v.typeName ++ " for evm genesis state", rfl⟩

/-- Witness for C10 at a concrete wrongly-typed override. -/
theorem setGenesis_error_no_mutation_spec_witness :
    ((setInflationGenesisState g0 cBadW).1 = g0 ∧
     ∃ e, (setInflationGenesisState g0 cBadW).2 = .error e) ∧
    ((setEVMGenesisState g0 cBadW).1 = g0 ∧
     ∃ e, (setEVMGenesisState g0 cBadW).2 = .error e) :=
  ⟨(setGenesis_error_no_mutation_spec g0 cBadW).1 (.strVal "oops") (by decide)
      (fun ig h => CustomGenValue.noConfusion h),
   (setGenesis_error_no_mutation_spec g0 cBadW).2 (.strVal "oops") (by decide)
      (fun eg h => CustomGenValue.noConfusion h)⟩
